import Mathlib

/-!
Verification of the Aeolus engine adapter (`zyngine/zynthian_engine_aeolus.py`):
a shallow embedding of its configuration state machine, stop-message codec,
tuning handshake, processor materialization and preset store, together with
theorems checking the specification's claims against the embedded code.

Python values are embedded as follows: machine integers as `Nat`/`Int`,
floats (only parsed and compared, never computed with) as exact decimal
values `PyFloat` (an integer mantissa with a power-of-ten denominator,
compared by numeric value as Python `==` compares floats), `None`-able
fields as `Option`, exceptions as `Except`/`Option`, strings as `String`
or `List Char`, and Python dicts as association lists looked up by key.
-/

namespace Aeolus

/-! ## Bit-packed stop control codec (`send_controller_value`) -/

/-- Fixed MIDI CC number used for all stop messages (`stop_cc_num = 98`). -/
def stop_cc_num : Nat := 98

/-- Value of a decimal digit character. -/
def chDigit (c : Char) : Nat := c.toNat - 48

/-- Embedding of Python `"{0:0wb}".format(n)`: binary digits of `n`
padded on the left with zeros to a *minimum* width `w` (wider numbers keep
all their digits; nothing is truncated). -/
def binFmt (w n : Nat) : List Char :=
  let ds := Nat.toDigits 2 n
  List.replicate (w - ds.length) '0' ++ ds

/-- Embedding of Python `int(s, 2)` on a string of binary digits. -/
def binVal (cs : List Char) : Nat :=
  cs.foldl (fun a c => 2 * a + (if c = '1' then 1 else 0)) 0

/-- The `mm` field of the first stop message: `"10"` when the controller
value is truthy, `"01"` otherwise. -/
def mmStr (value : Bool) : List Char :=
  if value then ['1', '0'] else ['0', '1']

/-- Embedding of the packing in `send_controller_value`:
`v1 = "01{0}0{1:03b}".format(mm, group)` and
`v2 = "000{0:05b}".format(button)`, both parsed back with `int(_, 2)`. -/
def encodeStop (value : Bool) (group button : Nat) : Nat × Nat :=
  (binVal (['0', '1'] ++ mmStr value ++ ['0'] ++ binFmt 3 group),
   binVal (['0', '0', '0'] ++ binFmt 5 button))

/-- Modelled from the spec: decoding of the two stop messages, which is not
present in the source and is described in §4.2 as recovering
`(v, group, button)` from `message1 = 0b01 mm 0 ggg`, `message2 = 0b000 bbbbb`
with `mm = "10"` (that is, 2) meaning truthy. -/
def decodeStop (m1 m2 : Nat) : Bool × Nat × Nat :=
  ((m1 >>> 4) &&& 3 == 2, m1 &&& 7, m2 &&& 31)

/-- Symbols that `send_controller_value` routes to a plain control change.
The Python loop is `for c in self.swell_ctrls + ["Sustain"]: if
zctrl.symbol == c[0]`; for the three swell controller *lists* `c[0]` is the
symbol, but for the *string* `"Sustain"` the expression `c[0]` is its first
character `"S"`, so the matched symbols are these four. -/
def swell_match_symbols : List String := ["Swell", "Trem Freq", "Trem Amp", "S"]

/-- One outbound MIDI message: `set_midi_control(chan, num, val)`. -/
inductive MidiSend where
  | cc (chan num val : Nat)
deriving DecidableEq, Repr

/-- Embedding of `send_controller_value`. Arguments are the fields of the
`zctrl` argument read by the method: its symbol, MIDI channel, MIDI CC
number, (integer) value — whose Python truthiness is `value ≠ 0` — and
graph path `(group, button)`. The result is the list of MIDI messages
sent, or `Except.error` for a raised exception (on natural-number inputs
the string formatting and `int(_, 2)` parsing never raise). -/
def send_controller_value (symbol : String) (chan cc value : Nat)
    (graph_path : Nat × Nat) : Except String (List MidiSend) :=
  if symbol ∈ swell_match_symbols then
    Except.ok [MidiSend.cc chan cc value]
  else
    let p := encodeStop (value != 0) graph_path.1 graph_path.2
    Except.ok [MidiSend.cc chan stop_cc_num p.1, MidiSend.cc chan stop_cc_num p.2]

/-! ## Definition-file tuning parser (`get_current_config`) -/

/-- Numeric value of a list of decimal digit characters. -/
def digitsVal (cs : List Char) : Nat :=
  cs.foldl (fun a c => 10 * a + chDigit c) 0

/-- Python `str.strip()` on a string embedded as a character list. -/
def strTrim (cs : List Char) : List Char :=
  ((cs.dropWhile Char.isWhitespace).reverse.dropWhile Char.isWhitespace).reverse

/-- Exact decimal value of a Python float literal: the represented number
is `mantissa / 10 ^ exp10`. -/
structure PyFloat where
  mantissa : ℤ
  exp10 : ℕ
deriving DecidableEq, Repr

/-- Numeric equality of two `PyFloat`s (how Python `==` compares the
floats this development manipulates): cross-multiplied mantissas. -/
def PyFloat.valEq (a b : PyFloat) : Bool :=
  a.mantissa * Int.ofNat (10 ^ b.exp10) == b.mantissa * Int.ofNat (10 ^ a.exp10)

/-- Python `current == requested` where `current` may be `None`
(`None == x` is `False` for a float `x`). -/
def optValEq (o : Option PyFloat) (f : PyFloat) : Bool :=
  match o with
  | some c => c.valEq f
  | none => false

/-- Model of the Python builtin `float(s)` restricted to the plain decimal
literals that occur in definition files: optional surrounding whitespace,
optional sign, digits with an optional fractional part. A parse failure
(Python `ValueError`) is `none`. -/
def pyFloat (s : List Char) : Option PyFloat :=
  let t := strTrim s
  let sgn : ℤ := if t.head? = some '-' then -1 else 1
  let u := if t.head? = some '-' ∨ t.head? = some '+' then t.tail else t
  match u.splitOn '.' with
  | [i] =>
    if i ≠ [] ∧ i.all Char.isDigit then some ⟨sgn * digitsVal i, 0⟩ else none
  | [i, f] =>
    if i ++ f ≠ [] ∧ (i ++ f).all Char.isDigit then
      some ⟨sgn * digitsVal (i ++ f), f.length⟩
    else none
  | _ => none

/-- Model of the Python builtin `int(s)` (base 10): optional surrounding
whitespace, optional sign, at least one digit; failure is `none`. -/
def pyInt (s : List Char) : Option ℤ :=
  let t := strTrim s
  let sgn : ℤ := if t.head? = some '-' then -1 else 1
  let u := if t.head? = some '-' ∨ t.head? = some '+' then t.tail else t
  if u ≠ [] ∧ u.all Char.isDigit then some (sgn * digitsVal u) else none

/-- Embedding of the body of the `if line.startswith("/tuning")` branch of
`get_current_config`: `parts = line[8:].split(' ')`, then
`current_tuning_freq = float(parts[0])` (`None` on failure) and
`current_temperament = int(parts[1])` (`None` on failure, including the
`IndexError` when there is no second part). -/
def parseTuningLine (line : List Char) : Option PyFloat × Option ℤ :=
  let parts := (line.drop 8).splitOn ' '
  (pyFloat (parts.headD []),
   match parts[1]? with
   | some p => pyInt p
   | none => none)

/-- Test of Python `line.startswith("/tuning")` on an embedded line. -/
def isTuningLine (line : List Char) : Bool :=
  List.isPrefixOf ['/', 't', 'u', 'n', 'i', 'n', 'g'] line

/-- Embedding of `get_current_config`: fold over the lines of the
definition file, every line starting with `"/tuning"` overwriting both
fields of the state (there is no `break` in the source loop). -/
def get_current_config (st : Option PyFloat × Option ℤ) (lines : List (List Char)) :
    Option PyFloat × Option ℤ :=
  lines.foldl (fun acc line =>
    if isTuningLine line then parseTuningLine line else acc) st

/-! ## Ready-signal wait (`wait_for_ready`) -/

/-- Outcome of a `wait_for_ready` call: normal return, or the `TypeError`
Python 3 raises when `None > 0` is evaluated. -/
inductive WaitOutcome where
  | ret
  | typeError
deriving DecidableEq, Repr

/-- Embedding of `while not self.ready: sleep(0.25)`. The ready flag is a
time-indexed trace `ready : Nat → Bool` (it is set by the asynchronous OSC
callback); `fuel` bounds the number of observed polls, `none` meaning the
loop is still blocked after `fuel` polls. Returns the poll index at which
the flag was first observed true. -/
def wait_none_loop (ready : Nat → Bool) : Nat → Nat → Option Nat
  | 0, _ => none
  | fuel + 1, k => if ready k then some k else wait_none_loop ready fuel (k + 1)

/-- Embedding of `while timeout > 0: if self.ready: return; timeout -= 0.25;
sleep(0.25)` for a numeric timeout, with the same fuel convention. Falling
off the loop is Python's implicit `return None`, a normal return. -/
def wait_bounded_loop (ready : Nat → Bool) : Nat → ℚ → Nat → Option WaitOutcome
  | 0, _, _ => none
  | fuel + 1, t, k =>
    if t > 0 then
      if ready k then some WaitOutcome.ret
      else wait_bounded_loop ready fuel (t - 1/4) (k + 1)
    else some WaitOutcome.ret

/-- Embedding of `wait_for_ready(timeout)`. For `timeout = None` the source
runs `while not self.ready: sleep(0.25)` and then *falls through* (there is
no `return` and no `else`) to `while timeout > 0`, which evaluates
`None > 0`: in Python 3 this raises `TypeError` — modelled as
`WaitOutcome.typeError`. -/
def wait_for_ready (ready : Nat → Bool) (timeout : Option ℚ) (fuel : Nat) :
    Option WaitOutcome :=
  match timeout with
  | none =>
    match wait_none_loop ready fuel 0 with
    | some _ => some WaitOutcome.typeError
    | none => none
  | some t => wait_bounded_loop ready fuel t 0

/-! ## Tuning handshake (`set_tuning`) -/

/-- The observable steps of `set_tuning` in order: `self.ready = False`,
the `/retune` OSC send (carrying the frequency and temperament arguments),
the `wait_for_ready()` call, and the `/save` OSC send. -/
inductive TuningAction where
  | clearReady
  | sendRetune (freq : PyFloat) (temp : Option ℤ)
  | waitReady
  | sendSave
deriving DecidableEq, Repr

/-- The tuning fields of the engine object read and written by
`set_tuning` (both may be `None` after a failed definition-file parse). -/
structure TuningState where
  current_tuning_freq : Option PyFloat
  current_temperament : Option ℤ
deriving DecidableEq, Repr

/-- Embedding of `set_tuning`: compares `(current_tuning_freq,
current_temperament)` with the requested
`(state_manager.fine_tuning_freq, self.temperament)`; if both equal it
returns `False` having done nothing, otherwise it assigns the requested
values, clears ready, sends `/retune` with the (just assigned) values,
waits for ready, sends `/save`, and returns `True`. Result: the new state,
the action trace, and the Python return value. -/
def set_tuning (st : TuningState) (fine_tuning_freq : PyFloat)
    (temperament : Option ℤ) : TuningState × List TuningAction × Bool :=
  if optValEq st.current_tuning_freq fine_tuning_freq ∧
      st.current_temperament = temperament then
    (st, [], false)
  else
    ({ current_tuning_freq := some fine_tuning_freq,
       current_temperament := temperament },
     [TuningAction.clearReady, TuningAction.sendRetune fine_tuning_freq temperament,
      TuningAction.waitReady, TuningAction.sendSave],
     true)

/-! ## Bank-selection state machine (`set_bank`) -/

/-- The engine fields driving `set_bank`: the two selections made by the
configuration steps (`bank_info[1]` values, `None` until chosen), whether
the external process handle `self.proc` is live, and the restart flag. -/
structure BankState where
  keyboard_config : Option ℤ
  temperament : Option ℤ
  proc : Bool
  restart_flag : Bool
deriving DecidableEq, Repr

/-- State installed by `__init__`: no keyboard layout, no temperament, no
process, no restart pending. -/
def init_state : BankState :=
  { keyboard_config := none, temperament := none, proc := false,
    restart_flag := false }

/-- Embedding of `set_bank`, driven by `bank_info[1]` (an index that is
`None` for the per-division local bank entry). While `keyboard_config` is
`None` it records the layout and returns `None`; else while `temperament`
is `None` it records the temperament; then it stops a restart-flagged
process (`stop()` clears both `proc` and `restart_flag`), starts a dead one
(`start()` makes `proc` live) returning `None`, or sends the bank-select
MIDI message and returns `True`. -/
def set_bank (st : BankState) (bank_index : Option ℤ) : BankState × Option Bool :=
  if st.keyboard_config = none then
    ({ st with keyboard_config := bank_index }, none)
  else
    let st1 := if st.temperament = none then
      { st with temperament := bank_index } else st
    let st2 := if st1.restart_flag then
      { st1 with proc := false, restart_flag := false } else st1
    if st2.proc = false then
      ({ st2 with proc := true }, none)
    else
      (st2, some true)

/-- State after a sequence of `set_bank` calls starting from `__init__`. -/
def run_set_bank (seq : List (Option ℤ)) : BankState :=
  seq.foldl (fun s b => (set_bank s b).1) init_state

/-! ## Processor materialization during `start()` -/

/-- Keys of the class-level `instrument` dict, in insertion order (bit `i`
of the keyboard layout bitmask names division `i` of this list, as the
`keyboard_config_names` table shows). -/
def instrument_names : List String :=
  ["Manual I", "Manual II", "Manual III", "Pedals"]

/-- Embedding of `add_processor` restricted to its observable effect on
the division assignment: `processor.division =
list(self.instrument)[len(self.processors)]` and the processor is appended;
an `IndexError` (index past the table) is caught and nothing is added.
Processors are represented by their assigned division name. -/
def add_processor (procs : List String) : List String :=
  match instrument_names[procs.length]? with
  | some d => procs ++ [d]
  | none => procs

/-- Embedding of the extra-processor loop in `start()`:
`for processor_index in range(len(self.processors), len(self.instrument))`,
each index whose bit is set in `keyboard_config` requesting a MIDI channel
from the allocator (`chan_alloc` maps the running count `k` of allocation
requests to the channel returned, `none` meaning no free channel, on which
the loop `break`s) and then calling `add_processor`. -/
def materialize_loop (kc : Nat) (chan_alloc : Nat → Option Nat) :
    List Nat → List String → Nat → List String
  | [], procs, _ => procs
  | idx :: rest, procs, k =>
    if kc &&& (1 <<< idx) ≠ 0 then
      match chan_alloc k with
      | none => procs
      | some _ => materialize_loop kc chan_alloc rest (add_processor procs) (k + 1)
    else materialize_loop kc chan_alloc rest procs k

/-- The processor list after the `if len(self.processors) <= 1` block of
`start()`. -/
def start_divisions (kc : Nat) (procs : List String)
    (chan_alloc : Nat → Option Nat) : List String :=
  if procs.length ≤ 1 then
    materialize_loop kc chan_alloc
      (List.range' procs.length (instrument_names.length - procs.length)) procs 0
  else procs

/-- Embedding of `start()` up to its observable success or failure: with no
processor at all, `self.processors[0]` (allocator hint and active-chain
selection) raises `IndexError`; otherwise the block completes and the
remaining launch/configuration steps run without raising. -/
def start (kc : Nat) (procs : List String)
    (chan_alloc : Nat → Option Nat) : Except String (List String) :=
  if procs.length ≤ 1 then
    if procs = [] then Except.error "IndexError"
    else
      Except.ok (materialize_loop kc chan_alloc
        (List.range' procs.length (instrument_names.length - procs.length)) procs 0)
  else Except.ok procs

/-- Modelled from the spec: the divisions named by the set bits of the
layout bitmask (bit 0 = Manual I, bit 1 = Manual II, bit 2 = Manual III,
bit 3 = Pedals), the set the claim says `start()` materializes. -/
def mask_divisions (kc : Nat) : List String :=
  (List.range instrument_names.length).filterMap fun i =>
    if kc &&& (1 <<< i) ≠ 0 then instrument_names[i]? else none

/-! ## Preset store (`set_preset`, `delete_preset`, `save_all_presets`) -/

/-- One division's slice of a preset: control symbol to stored value. -/
abbrev DivSnapshot := List (String × ℤ)

/-- A preset snapshot: division name to that division's control values. -/
abbrev Snapshot := List (String × DivSnapshot)

/-- A live controller: its symbol and current value (`zctrl.set_value` is
modelled, per spec §4.6, as pushing the stored value into the control). -/
structure Ctrl where
  symbol : String
  value : ℤ
deriving DecidableEq, Repr

/-- A processor as `set_preset` sees it: its division name and its
`controllers_dict` of live controls. -/
structure ProcState where
  division : String
  ctrls : List Ctrl
deriving DecidableEq, Repr

/-- Embedding of the inner `try: value = preset[l.division][zctrl.symbol];
zctrl.set_value(value, True); except: pass` for one control, given the
division's slice of the snapshot. -/
def apply_ctrl (divSnap : DivSnapshot) (c : Ctrl) : Ctrl :=
  match divSnap.lookup c.symbol with
  | some v => { c with value := v }
  | none => c

/-- The same per-processor: a missing division key makes every lookup of
that processor raise (and be swallowed), leaving all its controls as they
were. -/
def apply_proc (preset : Snapshot) (p : ProcState) : ProcState :=
  match preset.lookup p.division with
  | some divSnap => { p with ctrls := p.ctrls.map (apply_ctrl divSnap) }
  | none => p

/-- The value the snapshot holds for a (division, symbol) pair, if both
keys are present: `preset[division][symbol]` as an `Option`. -/
def snapshot_value (preset : Snapshot) (division symbol : String) : Option ℤ :=
  (preset.lookup division).bind fun d => d.lookup symbol

/-- Embedding of the `for l in self.processors` loop of `set_preset`:
processor `i` is updated when the bank is `"General"` or `l == processor`
(the target processor, identified by its index). -/
def set_preset_loop (preset : Snapshot) (bank : String) (target : Nat) :
    List ProcState → Nat → List ProcState
  | [], _ => []
  | p :: rest, i =>
    (if bank = "General" ∨ i = target then apply_proc preset p else p) ::
      set_preset_loop preset bank target rest (i + 1)

/-- Embedding of `set_preset`: `preset = self.presets[preset_info[2]]`
raises `KeyError` for an unknown preset name; otherwise the controller
values are updated per scope and the method returns `True`. -/
def set_preset (presets : List (String × Snapshot)) (bank name : String)
    (procs : List ProcState) (target : Nat) :
    Except String (List ProcState × Bool) :=
  match presets.lookup name with
  | none => Except.error "KeyError"
  | some preset => Except.ok (set_preset_loop preset bank target procs 0, true)

/-- Embedding of `save_all_presets`: the store serialized wholesale; the
result is the new content of the user presets file. -/
def save_all_presets (store : List (String × Snapshot)) :
    List (String × Snapshot) := store

/-- Embedding of Python `dict.pop(name)` on the preset store (keys are
unique in a dict; the first matching binding is removed). -/
def popKey : List (String × Snapshot) → String → List (String × Snapshot)
  | [], _ => []
  | (k, v) :: rest, name => if name = k then rest else (k, v) :: popKey rest name

/-- Embedding of `delete_preset`: `try: self.presets.pop(preset_info[2])
except: return` — on `KeyError` it returns `None` having touched nothing;
otherwise it rewrites the whole store to disk and returns the new store
size. The result is (in-memory store, on-disk file content, return value),
`file` being the file content before the call. -/
def delete_preset (store file : List (String × Snapshot)) (name : String) :
    List (String × Snapshot) × List (String × Snapshot) × Option Nat :=
  match store.lookup name with
  | none => (store, file, none)
  | some _ =>
    let s2 := popKey store name
    (s2, save_all_presets s2, some s2.length)

theorem encodeStop_eval : ∀ (v : Bool), ∀ g < 8, ∀ b < 32,
    encodeStop v g b = (64 + (if v then 32 else 16) + g, b) := by decide

theorem decodeStop_eval : ∀ (v : Bool), ∀ g < 4, ∀ b < 16,
    decodeStop (64 + (if v then 32 else 16) + g) b = (v, g, b) := by decide

/-- C1: for every boolean stop control with graph path `(group, button)`,
`group ∈ [0,3]`, `button ∈ [0,15]`, and target value `v`,
`send_controller_value` emits exactly two control changes on the fixed stop
CC 98, the first `0b01 mm 0 ggg` with `mm = 10` iff `v` is truthy, the second
`0b000 bbbbb`, and decoding the two integers recovers `(v, group, button)`. -/
theorem C1_stop_codec_roundtrip (symbol : String) (chan cc : Nat) (v : Bool)
    (g b : Nat) (hsym : symbol ∉ swell_match_symbols) (hg : g < 4) (hb : b < 16) :
    send_controller_value symbol chan cc (if v then 1 else 0) (g, b) =
      Except.ok [MidiSend.cc chan stop_cc_num (64 + (if v then 32 else 16) + g),
                 MidiSend.cc chan stop_cc_num b] ∧
    decodeStop (64 + (if v then 32 else 16) + g) b = (v, g, b) := by
  refine ⟨?_, decodeStop_eval v g hg b hb⟩
  have hv : ((if v then 1 else 0 : Nat) != 0) = v := by cases v <;> rfl
  rw [send_controller_value, if_neg hsym]
  simp only [hv, encodeStop_eval v g (by omega) b (by omega)]

theorem C1_stop_codec_roundtrip_witness :
    ("Principal 8" : String) ∉ swell_match_symbols ∧
    (send_controller_value "Principal 8" 0 14 (if true then 1 else 0) (2, 5) =
      Except.ok [MidiSend.cc 0 stop_cc_num (64 + (if true then 32 else 16) + 2),
                 MidiSend.cc 0 stop_cc_num 5] ∧
     decodeStop (64 + (if true then 32 else 16) + 2) 5 = (true, 2, 5)) :=
  ⟨by decide,
   C1_stop_codec_roundtrip "Principal 8" 0 14 true 2 5 (by decide) (by decide) (by decide)⟩

/-- C6 counterexample: at the out-of-range graph path `(4, 0)` (group 4 is
outside `[0,3]`), `send_controller_value` does not fail fast: it raises
nothing and sends the two stop messages, silently packing group 4 into the
3-bit field (`0b01100100 = 100`). -/
theorem C6_counterexample :
    send_controller_value "Principal 8" 0 14 1 (4, 0) =
      Except.ok [MidiSend.cc 0 stop_cc_num 100, MidiSend.cc 0 stop_cc_num 0] := rfl

/-- C6 amended: `send_controller_value` performs no range check and raises no
error: for every group in `[0,7]` and button in `[0,31]` (including the
out-of-range parts `[4,7]` and `[16,31]`) the values are silently packed,
untruncated, into the 3-bit and 5-bit fields of the two stop messages. -/
theorem C6_out_of_range_silently_encoded (symbol : String) (chan cc value g b : Nat)
    (hsym : symbol ∉ swell_match_symbols) (hg : g < 8) (hb : b < 32) :
    send_controller_value symbol chan cc value (g, b) =
      Except.ok [MidiSend.cc chan stop_cc_num (64 + (if value != 0 then 32 else 16) + g),
                 MidiSend.cc chan stop_cc_num b] := by
  rw [send_controller_value, if_neg hsym]
  simp only [encodeStop_eval (value != 0) g hg b hb]

theorem C6_out_of_range_silently_encoded_witness :
    ("Principal 8" : String) ∉ swell_match_symbols ∧
    send_controller_value "Principal 8" 0 14 1 (6, 20) =
      Except.ok [MidiSend.cc 0 stop_cc_num (64 + (if (1 : Nat) != 0 then 32 else 16) + 6),
                 MidiSend.cc 0 stop_cc_num 20] :=
  ⟨by decide,
   C6_out_of_range_silently_encoded "Principal 8" 0 14 1 6 20
     (by decide) (by decide) (by decide)⟩

theorem get_current_config_no_tuning (st : Option PyFloat × Option ℤ) :
    ∀ post : List (List Char), (∀ x ∈ post, isTuningLine x = false) →
      get_current_config st post = st := by
  intro post
  induction post generalizing st with
  | nil => intro _; rfl
  | cons a t ih =>
    intro h
    have ha := h a (List.mem_cons_self a t)
    have hstep : get_current_config st (a :: t) = get_current_config st t := by
      simp [get_current_config, ha]
    rw [hstep]
    exact ih st fun x hx => h x (List.mem_cons_of_mem a hx)

/-- C3 counterexample: on a definition file with two `/tuning` lines,
`get_current_config` returns the frequency and temperament of the *second*
(last) line, not the first as the claim states: the loop has no `break`,
so each matching line overwrites the previous values. -/
theorem C3_counterexample :
    get_current_config (none, none)
        ["/tuning 440.0 5\n".toList, "/tuning 438.0 4\n".toList] =
      (some ⟨4380, 1⟩, some 4) ∧
    parseTuningLine "/tuning 440.0 5\n".toList = (some ⟨4400, 1⟩, some 5) ∧
    ((some (⟨4380, 1⟩ : PyFloat), some (4 : ℤ)) ≠ (some ⟨4400, 1⟩, some 5)) := by
  decide

/-- C3 amended: when a definition file contains one or more `/tuning`
lines, `current_tuning_freq` and `current_temperament` are set from the
*last* such line; earlier `/tuning` lines do not affect the result. -/
theorem C3_last_tuning_line_wins (st : Option PyFloat × Option ℤ)
    (pre post : List (List Char)) (l : List Char)
    (hl : isTuningLine l = true)
    (hpost : ∀ x ∈ post, isTuningLine x = false) :
    get_current_config st (pre ++ l :: post) = parseTuningLine l := by
  have hsplit : get_current_config st (pre ++ l :: post) =
      get_current_config (get_current_config st pre) (l :: post) := by
    simp [get_current_config, List.foldl_append]
  have hcons : get_current_config (get_current_config st pre) (l :: post) =
      get_current_config (parseTuningLine l) post := by
    simp [get_current_config, hl]
  rw [hsplit, hcons]
  exact get_current_config_no_tuning _ post hpost

theorem C3_last_tuning_line_wins_witness :
    isTuningLine "/tuning 438.0 4\n".toList = true ∧
    get_current_config (none, none)
        (["/rank A\n".toList] ++ "/tuning 438.0 4\n".toList ::
          ["/instr/waves\n".toList]) =
      parseTuningLine "/tuning 438.0 4\n".toList :=
  ⟨by decide,
   C3_last_tuning_line_wins (none, none) ["/rank A\n".toList]
     ["/instr/waves\n".toList] "/tuning 438.0 4\n".toList
     (by decide) (by decide)⟩

/-- C4: with `timeout = None` and the ready flag already true at the call,
`wait_for_ready` does not return normally: the `timeout is None` branch
falls through to `while timeout > 0`, whose comparison `None > 0` raises
`TypeError`. This contradicts the claim (and the method's own docstring,
"Blocks until ready or timeout"), so the code, not the claim, is wrong. -/
theorem C4_wait_none_raises_typeerror :
    wait_for_ready (fun _ => true) none 1 = some WaitOutcome.typeError ∧
    WaitOutcome.typeError ≠ WaitOutcome.ret := by decide

/-- C5: `set_tuning` returns `False` and sends nothing when the current
tuning already equals the requested one (so a repeated call performs no
retune); otherwise it sends exactly one `/retune` carrying the requested
frequency and temperament followed by exactly one `/save`, updates the
current values to the requested ones, and returns `True`. -/
theorem C5_set_tuning_idempotent (st : TuningState) (f : PyFloat) (t : Option ℤ) :
    ((optValEq st.current_tuning_freq f ∧ st.current_temperament = t) →
      set_tuning st f t = (st, [], false)) ∧
    (¬(optValEq st.current_tuning_freq f ∧ st.current_temperament = t) →
      set_tuning st f t =
        ({ current_tuning_freq := some f, current_temperament := t },
         [TuningAction.clearReady, TuningAction.sendRetune f t,
          TuningAction.waitReady, TuningAction.sendSave], true)) := by
  constructor
  · intro h
    rw [set_tuning, if_pos h]
  · intro h
    rw [set_tuning, if_neg h]

theorem C5_set_tuning_idempotent_witness :
    set_tuning ⟨some ⟨4400, 1⟩, some 5⟩ ⟨4400, 1⟩ (some 5) =
      (⟨some ⟨4400, 1⟩, some 5⟩, [], false) ∧
    set_tuning ⟨some ⟨4400, 1⟩, some 5⟩ ⟨4380, 1⟩ (some 4) =
      ({ current_tuning_freq := some ⟨4380, 1⟩, current_temperament := some 4 },
       [TuningAction.clearReady, TuningAction.sendRetune ⟨4380, 1⟩ (some 4),
        TuningAction.waitReady, TuningAction.sendSave], true) :=
  ⟨(C5_set_tuning_idempotent ⟨some ⟨4400, 1⟩, some 5⟩ ⟨4400, 1⟩ (some 5)).1
     (by decide),
   (C5_set_tuning_idempotent ⟨some ⟨4400, 1⟩, some 5⟩ ⟨4380, 1⟩ (some 4)).2
     (by decide)⟩

theorem set_bank_preserves (st : BankState) (b : Option ℤ)
    (h : st.temperament = none ∨ st.keyboard_config ≠ none) :
    (set_bank st b).1.temperament = none ∨
    (set_bank st b).1.keyboard_config ≠ none := by
  by_cases hk : st.keyboard_config = none
  · rcases h with ht | hkc
    · left; simp [set_bank, hk, ht]
    · exact absurd hk hkc
  · right
    by_cases ht : st.temperament = none <;> by_cases hr : st.restart_flag <;>
      by_cases hp : st.proc <;> simp [set_bank, hk, ht, hr, hp]

theorem run_set_bank_inv : ∀ (seq : List (Option ℤ)) (st : BankState),
    (st.temperament = none ∨ st.keyboard_config ≠ none) →
    ((seq.foldl (fun s b => (set_bank s b).1) st).temperament = none ∨
     (seq.foldl (fun s b => (set_bank s b).1) st).keyboard_config ≠ none) := by
  intro seq
  induction seq with
  | nil => intro st h; exact h
  | cons a t ih => intro st h; exact ih _ (set_bank_preserves st a h)

/-- C7: in every state reachable from the `__init__` state by `set_bank`
calls, a recorded temperament implies a recorded keyboard layout; and a
`set_bank` call arriving while `keyboard_config` is `None` records the
layout only (never the temperament) and returns `None` (more selection
steps required), so a temperament can never be selected first. -/
theorem C7_layout_before_temperament :
    (∀ seq : List (Option ℤ), (run_set_bank seq).temperament ≠ none →
      (run_set_bank seq).keyboard_config ≠ none) ∧
    (∀ (st : BankState) (b : Option ℤ), st.keyboard_config = none →
      set_bank st b = ({ st with keyboard_config := b }, none)) := by
  constructor
  · intro seq ht
    rcases run_set_bank_inv seq init_state (Or.inl rfl) with h1 | h2
    · exact absurd h1 ht
    · exact h2
  · intro st b hk
    rw [set_bank, if_pos hk]

theorem C7_layout_before_temperament_witness :
    ((run_set_bank [some 1, some 5]).keyboard_config ≠ none) ∧
    set_bank init_state (some 13) =
      ({ init_state with keyboard_config := some 13 }, none) :=
  ⟨C7_layout_before_temperament.1 [some 1, some 5] (by decide),
   C7_layout_before_temperament.2 init_state (some 13) (by decide)⟩

/-- C2: with the non-contiguous layout bitmask 13 (named
"Manual I+III+Pedals" by `keyboard_config_names`) and the initial single
processor, the `start()` loop materializes divisions
`Manual I, Manual II, Manual III` — the first three divisions in table
order — because `add_processor` indexes the instrument table with
`len(self.processors)` instead of the loop's bit index. The claim (and the
mask's own name) says the divisions should be `Manual I, Manual III,
Pedals`, so the code contradicts its own naming table. -/
theorem C2_noncontiguous_mask_wrong_divisions :
    start_divisions 13 ["Manual I"] (fun _ => some 1) =
      ["Manual I", "Manual II", "Manual III"] ∧
    mask_divisions 13 = ["Manual I", "Manual III", "Pedals"] ∧
    (["Manual I", "Manual II", "Manual III"] : List String) ≠
      ["Manual I", "Manual III", "Pedals"] := by
  decide

theorem add_processor_length (procs : List String) :
    (add_processor procs).length ≤ procs.length + 1 := by
  rw [add_processor]
  cases h : instrument_names[procs.length]? <;> simp

/-- C8: if the channel allocator returns `none` for some division, the
materialization loop stops — the first conjunct: a failure on the very next
request adds nothing; the second: a failure `n` requests ahead caps the
processor count at `n` more than already exist; and `start()` with at least
one processor still returns successfully rather than raising. -/
theorem C8_alloc_failure_caps (kc : Nat) (procs : List String)
    (chan_alloc : Nat → Option Nat) (k : Nat) (idxs : List Nat) (n : Nat) :
    (chan_alloc k = none → materialize_loop kc chan_alloc idxs procs k = procs) ∧
    (chan_alloc (k + n) = none →
      (materialize_loop kc chan_alloc idxs procs k).length ≤ procs.length + n) ∧
    (procs ≠ [] → ∃ ps, start kc procs chan_alloc = Except.ok ps) := by
  refine ⟨?_, ?_, ?_⟩
  · intro h
    induction idxs generalizing procs with
    | nil => rfl
    | cons idx rest ih =>
      by_cases hbit : kc &&& (1 <<< idx) ≠ 0
      · simp [materialize_loop, hbit, h]
      · simp only [materialize_loop, hbit, if_false]
        exact ih procs
  · intro h
    induction idxs generalizing procs k n with
    | nil => simp [materialize_loop]
    | cons idx rest ih =>
      by_cases hbit : kc &&& (1 <<< idx) ≠ 0
      · cases halloc : chan_alloc k with
        | none => simp [materialize_loop, hbit, halloc]
        | some c =>
          cases n with
          | zero => rw [Nat.add_zero] at h; rw [h] at halloc; cases halloc
          | succ m =>
            have h' : chan_alloc (k + 1 + m) = none := by
              have hkm : k + 1 + m = k + (m + 1) := by omega
              rw [hkm]; exact h
            have hrec := ih (add_processor procs) (k + 1) m h'
            have hlen := add_processor_length procs
            rw [materialize_loop, if_pos hbit, halloc]
            show (materialize_loop kc chan_alloc rest (add_processor procs)
                (k + 1)).length ≤ procs.length + (m + 1)
            omega
      · simp only [materialize_loop, hbit, if_false]
        exact ih procs k n h
  · intro hne
    by_cases hl : procs.length ≤ 1 <;> simp [start, hl, hne]

theorem C8_alloc_failure_caps_witness :
    materialize_loop 15 (fun _ => none) [1, 2, 3] ["Manual I"] 0 = ["Manual I"] ∧
    (materialize_loop 15 (fun _ => none) [1, 2, 3] ["Manual I"] 0).length ≤
      (["Manual I"] : List String).length + 0 ∧
    ∃ ps, start 15 ["Manual I"] (fun _ => none) = Except.ok ps :=
  ⟨(C8_alloc_failure_caps 15 ["Manual I"] (fun _ => none) 0 [1, 2, 3] 0).1 rfl,
   (C8_alloc_failure_caps 15 ["Manual I"] (fun _ => none) 0 [1, 2, 3] 0).2.1 rfl,
   (C8_alloc_failure_caps 15 ["Manual I"] (fun _ => none) 0 [1, 2, 3] 0).2.2
     (by decide)⟩

theorem apply_proc_division (preset : Snapshot) (p : ProcState) :
    (apply_proc preset p).division = p.division := by
  rw [apply_proc]
  cases preset.lookup p.division <;> rfl

theorem apply_ctrl_value (d : DivSnapshot) (c : Ctrl) :
    apply_ctrl d c = { c with value := (d.lookup c.symbol).getD c.value } := by
  rw [apply_ctrl]
  cases hs : d.lookup c.symbol with
  | none => rfl
  | some v => rfl

theorem apply_proc_getElem (preset : Snapshot) (p : ProcState) (j : Nat) (c : Ctrl)
    (h : p.ctrls[j]? = some c) :
    (apply_proc preset p).ctrls[j]? =
      some { c with value :=
        (snapshot_value preset p.division c.symbol).getD c.value } := by
  rw [apply_proc]
  cases hd : preset.lookup p.division with
  | none =>
    rw [h]
    simp [snapshot_value, hd]
  | some d =>
    simp [List.getElem?_map, h, apply_ctrl_value, snapshot_value, hd]

theorem set_preset_loop_length (preset : Snapshot) (bank : String) (target : Nat) :
    ∀ (procs : List ProcState) (i0 : Nat),
      (set_preset_loop preset bank target procs i0).length = procs.length := by
  intro procs
  induction procs with
  | nil => intro i0; rfl
  | cons p rest ih =>
    intro i0
    simp only [set_preset_loop, List.length_cons, ih]

theorem set_preset_loop_getElem (preset : Snapshot) (bank : String) (target : Nat) :
    ∀ (procs : List ProcState) (i0 i : Nat) (p : ProcState),
      procs[i]? = some p →
      (set_preset_loop preset bank target procs i0)[i]? =
        some (if bank = "General" ∨ i0 + i = target then apply_proc preset p else p) := by
  intro procs
  induction procs with
  | nil => intro i0 i p h; simp at h
  | cons q rest ih =>
    intro i0 i p h
    cases i with
    | zero =>
      simp only [List.getElem?_cons_zero, Option.some.injEq] at h
      subst h
      simp only [set_preset_loop, List.getElem?_cons_zero, Nat.add_zero]
    | succ j =>
      simp only [List.getElem?_cons_succ] at h
      have hj := ih (i0 + 1) j p h
      have harith : i0 + 1 + j = i0 + (j + 1) := by omega
      rw [harith] at hj
      simpa only [set_preset_loop, List.getElem?_cons_succ] using hj

/-- C9: when the preset name is in the store, `set_preset` raises nothing
and returns `True`; processors outside the scope (every processor when the
bank is `"General"`, only the target processor otherwise) are untouched;
within scope, each control whose division and symbol both appear in the
snapshot gets the stored value, and every other control keeps its old
value — missing divisions or symbols are skipped, not errors. -/
theorem C9_set_preset_partial_apply (presets : List (String × Snapshot))
    (bank name : String) (procs : List ProcState) (target : Nat)
    (preset : Snapshot) (h : presets.lookup name = some preset) :
    ∃ res : List ProcState,
      set_preset presets bank name procs target = Except.ok (res, true) ∧
      res.length = procs.length ∧
      (∀ i p, procs[i]? = some p → ¬(bank = "General" ∨ i = target) →
        res[i]? = some p) ∧
      (∀ i p, procs[i]? = some p → (bank = "General" ∨ i = target) →
        ∃ q : ProcState, res[i]? = some q ∧ q.division = p.division ∧
          q.ctrls.length = p.ctrls.length ∧
          ∀ (j : Nat) (c : Ctrl), p.ctrls[j]? = some c →
            q.ctrls[j]? = some { c with value :=
              (snapshot_value preset p.division c.symbol).getD c.value }) := by
  refine ⟨set_preset_loop preset bank target procs 0, ?_, ?_, ?_, ?_⟩
  · rw [set_preset, h]
  · exact set_preset_loop_length preset bank target procs 0
  · intro i p hp hns
    rw [set_preset_loop_getElem preset bank target procs 0 i p hp, if_neg]
    simpa only [Nat.zero_add] using hns
  · intro i p hp hs
    refine ⟨apply_proc preset p, ?_, apply_proc_division preset p, ?_, ?_⟩
    · rw [set_preset_loop_getElem preset bank target procs 0 i p hp, if_pos]
      simpa only [Nat.zero_add] using hs
    · rw [apply_proc]
      cases hd : preset.lookup p.division <;> simp
    · intro j c hc
      exact apply_proc_getElem preset p j c hc

theorem C9_set_preset_partial_apply_witness :
    ∃ res : List ProcState,
      set_preset
          [("Foo", [("Manual I", [("Sustain", 1)])])] "General" "Foo"
          [⟨"Manual I", [⟨"Sustain", 0⟩, ⟨"Mixtur", 0⟩]⟩, ⟨"Pedals", [⟨"P+I", 0⟩]⟩]
          0 =
        Except.ok (res, true) ∧
      res.length = 2 ∧
      (∀ i p,
        ([⟨"Manual I", [⟨"Sustain", 0⟩, ⟨"Mixtur", 0⟩]⟩,
          ⟨"Pedals", [⟨"P+I", 0⟩]⟩] : List ProcState)[i]? = some p →
        ¬(("General" : String) = "General" ∨ i = 0) → res[i]? = some p) ∧
      (∀ i p,
        ([⟨"Manual I", [⟨"Sustain", 0⟩, ⟨"Mixtur", 0⟩]⟩,
          ⟨"Pedals", [⟨"P+I", 0⟩]⟩] : List ProcState)[i]? = some p →
        (("General" : String) = "General" ∨ i = 0) →
        ∃ q : ProcState, res[i]? = some q ∧ q.division = p.division ∧
          q.ctrls.length = p.ctrls.length ∧
          ∀ (j : Nat) (c : Ctrl), p.ctrls[j]? = some c →
            q.ctrls[j]? = some { c with value :=
              (snapshot_value [("Manual I", [("Sustain", 1)])]
                p.division c.symbol).getD c.value }) :=
  C9_set_preset_partial_apply
    [("Foo", [("Manual I", [("Sustain", 1)])])] "General" "Foo"
    [⟨"Manual I", [⟨"Sustain", 0⟩, ⟨"Mixtur", 0⟩]⟩, ⟨"Pedals", [⟨"P+I", 0⟩]⟩]
    0 [("Manual I", [("Sustain", 1)])] (by decide)

theorem popKey_length : ∀ (store : List (String × Snapshot)) (name : String)
    (v : Snapshot), store.lookup name = some v →
    (popKey store name).length + 1 = store.length := by
  intro store
  induction store with
  | nil => intro name v h; simp [List.lookup] at h
  | cons kv rest ih =>
    intro name v h
    obtain ⟨k, w⟩ := kv
    by_cases hk : name = k
    · simp [popKey, hk]
    · have hr : rest.lookup name = some v := by
        simpa [List.lookup_cons, beq_false_of_ne hk] using h
      simp only [popKey, if_neg hk, List.length_cons]
      rw [ih name v hr]

/-- C10: `delete_preset` with a name absent from the store returns `None`
leaving both the in-memory store and the presets file untouched
(`save_all_presets` is not called); with a present name the entry is
removed, the whole remaining store is rewritten to disk, and the new store
size (one less) is returned. -/
theorem C10_delete_preset_failed_noop (store file : List (String × Snapshot))
    (name : String) :
    (store.lookup name = none → delete_preset store file name = (store, file, none)) ∧
    (∀ v, store.lookup name = some v →
      delete_preset store file name =
        (popKey store name, popKey store name, some (popKey store name).length) ∧
      (popKey store name).length + 1 = store.length) := by
  constructor
  · intro h
    simp [delete_preset, h]
  · intro v h
    exact ⟨by simp [delete_preset, h, save_all_presets],
           popKey_length store name v h⟩

theorem C10_delete_preset_failed_noop_witness :
    delete_preset [("Foo", [])] [("Foo", [])] "Bar" =
      ([("Foo", [])], [("Foo", [])], none) ∧
    (delete_preset [("Foo", []), ("Baz", [])] [("Foo", [])] "Foo" =
      (popKey [("Foo", []), ("Baz", [])] "Foo",
       popKey [("Foo", []), ("Baz", [])] "Foo",
       some (popKey [("Foo", []), ("Baz", [])] "Foo").length) ∧
     (popKey [("Foo", []), ("Baz", [])] "Foo").length + 1 =
       ([("Foo", []), ("Baz", [])] : List (String × Snapshot)).length) :=
  ⟨(C10_delete_preset_failed_noop [("Foo", [])] [("Foo", [])] "Bar").1 (by decide),
   (C10_delete_preset_failed_noop [("Foo", []), ("Baz", [])] [("Foo", [])] "Foo").2
     [] (by decide)⟩

end Aeolus
